import Mathlib

/-!
Verification of the SNEK multiplayer client's synchronization layer.

The definitions below are a shallow embedding of the client code:
* the session-state handlers of the `Game` page component
  (`handleRoomUpdate`, `handleGameUpdate`, `handleChatMessage`,
  `handleTypingUpdate`, `setRoomWithInterpolation`, the render-loop flush,
  `gameTick` and the game-loop guard), and
* the WebSocket transport client (`send`, `flushMessageQueue`,
  `attemptReconnect`, the `onopen` handler, `startKeepAlive`, `emit`),
* the lobby's start-button guard.

JavaScript idioms are modelled explicitly: nullable values are `Option`,
the `x || y` fallback on object fields is `jsOr`, truthiness of a string is
the `≠ ""` test, and wall-clock instants are natural-number milliseconds
(the code only ever compares differences of a monotone clock, for which
truncated subtraction agrees with JS arithmetic).
-/

namespace SnekClient

/-- Room lifecycle status as the client distinguishes it:
`waiting`, `playing`, `paused`, `ended`. -/
inductive Status where
| waiting
| playing
| paused
| ended
deriving DecidableEq, Repr

/-- An entry of `room.players`. `ready` is `Option Bool` because the source
checks `p.ready === true`, treating an absent flag as not ready. -/
structure Participant where
  id : String
  name : String
  ready : Option Bool
  isBot : Bool
deriving DecidableEq, Repr

/-- The authoritative session snapshot the server pushes. The chat-like
fields are `Option` because the source merges them with JS `||`
(a missing field falls back to the stored one); the simulation entities
(players/food/etc.) beyond `players` are opaque to the properties proved
here and are omitted. -/
structure Room where
  room_code : String
  status : Status
  players : List Participant
  host_id : Option String
  paused_by : Option String
  chat : Option (List String)
  gameChat : Option (List String)
  typing : Option (List String)
  timer : Option Nat
  winner : Option String
  message : Option String
deriving DecidableEq, Repr

/-- JS `x || y` on object-valued fields: a present value wins, otherwise
the fallback is used. (An empty list is a truthy JS array, hence kept.) -/
def jsOr {α : Type} (x y : Option α) : Option α :=
  match x with
  | some v => some v
  | none => y

/-- The mutable client state of the `Game` component that the handlers touch:
the authoritative `room`, the render-only `displayRoom`, the single-slot
`pendingRoomUpdate` buffer, the last display-update instant, the
waiting-lobby intent flag and the countdown value. -/
structure ClientState where
  room : Option Room
  displayRoom : Option Room
  pendingRoomUpdate : Option Room
  lastUpdateTime : Nat
  isInWaitingLobby : Bool
  countdown : Option Int
deriving DecidableEq, Repr

/-- `setRoomWithInterpolation(nextRoom)` at clock instant `now`: the
authoritative room is always replaced; the display snapshot is replaced
only when at least 16 ms passed since the previous display update,
otherwise the update is parked in the one-slot pending buffer
(overwriting whatever was parked there). -/
def setRoomWithInterpolation (s : ClientState) (nextRoom : Room) (now : Nat) : ClientState :=
  let s1 := { s with room := some nextRoom }
  if 16 ≤ now - s1.lastUpdateTime then
    { s1 with displayRoom := some nextRoom, lastUpdateTime := now, pendingRoomUpdate := none }
  else
    { s1 with pendingRoomUpdate := some nextRoom }

/-- `handleRoomUpdate`: while the waiting-lobby intent flag is set, an update
is applied only when its status is `waiting` (and then directly to `room`);
any other update is dropped. Without the flag the update goes through the
render pacer. A missing `room` payload is ignored. -/
def handleRoomUpdate (s : ClientState) (updatedRoom : Option Room) (now : Nat) : ClientState :=
  match updatedRoom with
  | none => s
  | some u =>
    if s.isInWaitingLobby then
      if u.status = Status.waiting then { s with room := some u } else s
    else
      setRoomWithInterpolation s u now

/-- A `gameUpdate` broadcast: the room payload plus transient event flags
(sound cues only; they do not touch the session state). -/
structure GameUpdate where
  room : Option Room
  foodEaten : Bool
  powerUpCollected : Bool
  eliminated : List String
deriving DecidableEq, Repr

/-- `handleGameUpdate`: every game update is dropped while the waiting-lobby
intent flag is set; otherwise the room payload goes through the render
pacer. A missing payload is ignored. -/
def handleGameUpdate (s : ClientState) (update : GameUpdate) (now : Nat) : ClientState :=
  match update.room with
  | none => s
  | some u =>
    if s.isInWaitingLobby then s
    else
      setRoomWithInterpolation s u now

/-- `handleChatMessage`: merge only `chat`, `gameChat` and `typing` into the
stored room (status and all other fields are taken from the stored room),
and apply the merge only if its status equals the current status — by
construction it always does. The display snapshot receives the same three
fields when present. -/
def handleChatMessage (s : ClientState) (updatedRoom : Option Room) : ClientState :=
  match updatedRoom, s.room with
  | some u, some r =>
    let merged : Room :=
      { r with chat := jsOr u.chat r.chat
               gameChat := jsOr u.gameChat r.gameChat
               typing := jsOr u.typing r.typing }
    if merged.status = r.status then
      let s1 := { s with room := some merged }
      match s1.displayRoom with
      | some d =>
          { s1 with displayRoom := some { d with chat := merged.chat
                                                 gameChat := merged.gameChat
                                                 typing := merged.typing } }
      | none => s1
    else s
  | _, _ => s

/-- `handleTypingUpdate`: like `handleChatMessage` but only the `typing`
field is merged. -/
def handleTypingUpdate (s : ClientState) (updatedRoom : Option Room) : ClientState :=
  match updatedRoom, s.room with
  | some u, some r =>
    let merged : Room := { r with typing := jsOr u.typing r.typing }
    if merged.status = r.status then
      let s1 := { s with room := some merged }
      match s1.displayRoom with
      | some d => { s1 with displayRoom := some { d with typing := merged.typing } }
      | none => s1
    else s
  | _, _ => s

/-- An authoritative broadcast as claim C1 ranges over it: a `roomUpdate`
or a `gameUpdate` frame. -/
inductive WsEvent where
| roomUpdate (room : Option Room)
| gameUpdate (u : GameUpdate)
deriving DecidableEq, Repr

/-- Dispatch one authoritative broadcast at clock instant `now`. -/
def applyWsEvent (s : ClientState) (e : WsEvent) (now : Nat) : ClientState :=
  match e with
  | WsEvent.roomUpdate r => handleRoomUpdate s r now
  | WsEvent.gameUpdate u => handleGameUpdate s u now

/-- Deliver a timed sequence of authoritative broadcasts in order. -/
def applyWsEvents (s : ClientState) (es : List (WsEvent × Nat)) : ClientState :=
  es.foldl (fun st p => applyWsEvent st p.1 p.2) s

/-- Whether a broadcast is a `roomUpdate` carrying a `waiting`-status room —
the only kind of broadcast the waiting-lobby intent lets through. -/
def isWaitingRoomUpdate : WsEvent → Bool
  | WsEvent.roomUpdate (some u) => u.status = Status.waiting
  | _ => false

/-- The `waiting`-status `roomUpdate` payloads of a broadcast sequence, in
delivery order. -/
def waitingRoomUpdates (es : List (WsEvent × Nat)) : List Room :=
  es.filterMap (fun p =>
    match p.1 with
    | WsEvent.roomUpdate (some u) =>
        if u.status = Status.waiting then some u else none
    | _ => none)

theorem applyWsEvent_intent (s : ClientState) (e : WsEvent) (t : Nat)
    (h : s.isInWaitingLobby = true) :
    applyWsEvent s e t =
      match e with
      | WsEvent.roomUpdate (some u) =>
          if u.status = Status.waiting then { s with room := some u } else s
      | _ => s := by
  cases e with
  | roomUpdate r =>
    cases r with
    | none => rfl
    | some u => simp [applyWsEvent, handleRoomUpdate, h]
  | gameUpdate u =>
    cases hr : u.room with
    | none => simp [applyWsEvent, handleGameUpdate, hr]
    | some r => simp [applyWsEvent, handleGameUpdate, hr, h]

theorem applyWsEvents_intent (s : ClientState) (es : List (WsEvent × Nat))
    (h : s.isInWaitingLobby = true) :
    applyWsEvents s es =
      { s with room := (waitingRoomUpdates es).foldl (fun _ u => some u) s.room } := by
  induction es generalizing s with
  | nil => rfl
  | cons p es ih =>
    obtain ⟨e, t⟩ := p
    show applyWsEvents (applyWsEvent s e t) es = _
    cases e with
    | roomUpdate r =>
      cases r with
      | none =>
        have hstep : applyWsEvent s (WsEvent.roomUpdate none) t = s := by
          simpa using applyWsEvent_intent s (WsEvent.roomUpdate none) t h
        rw [hstep, ih s h]
        rfl
      | some u =>
        have hstep : applyWsEvent s (WsEvent.roomUpdate (some u)) t =
            if u.status = Status.waiting then { s with room := some u } else s := by
          simpa using applyWsEvent_intent s (WsEvent.roomUpdate (some u)) t h
        by_cases hw : u.status = Status.waiting
        · have hintent : ({ s with room := some u } : ClientState).isInWaitingLobby = true := h
          rw [hstep, if_pos hw, ih _ hintent]
          simp [waitingRoomUpdates, hw]
        · rw [hstep, if_neg hw, ih s h]
          simp [waitingRoomUpdates, hw]
    | gameUpdate u =>
      have hstep : applyWsEvent s (WsEvent.gameUpdate u) t = s := by
        simpa using applyWsEvent_intent s (WsEvent.gameUpdate u) t h
      rw [hstep, ih s h]
      have : waitingRoomUpdates ((WsEvent.gameUpdate u, t) :: es) = waitingRoomUpdates es := rfl
      rw [this]

/-- Claim C1: while the waiting-lobby intent flag is set, a broadcast
sequence changes only `room`, the final value being the last delivered
`waiting`-status `roomUpdate` (or the prior room if none arrived), and any
single broadcast that is not a `waiting`-status `roomUpdate` leaves the
state exactly unchanged. -/
theorem c1_waiting_intent_filters_updates (s : ClientState) (es : List (WsEvent × Nat))
    (h : s.isInWaitingLobby = true) :
    applyWsEvents s es =
      { s with room := (waitingRoomUpdates es).foldl (fun _ u => some u) s.room } ∧
    (∀ (s2 : ClientState) (e : WsEvent) (t : Nat), s2.isInWaitingLobby = true →
      isWaitingRoomUpdate e = false → applyWsEvent s2 e t = s2) := by
  refine ⟨applyWsEvents_intent s es h, ?_⟩
  intro s2 e t h2 hne
  rw [applyWsEvent_intent s2 e t h2]
  cases e with
  | roomUpdate r =>
    cases r with
    | none => rfl
    | some u =>
      have hw : ¬ u.status = Status.waiting := by
        simpa [isWaitingRoomUpdate] using hne
      simp [hw]
  | gameUpdate u => rfl

/-- A concrete `waiting` room used by the concrete witnesses. -/
def roomW : Room :=
  { room_code := "AB12", status := Status.waiting, players := [], host_id := some "h1",
    paused_by := none, chat := none, gameChat := none, typing := none,
    timer := none, winner := none, message := none }

/-- A concrete `playing` room used by the concrete witnesses. -/
def roomP : Room := { roomW with status := Status.playing }

/-- A concrete client state with the waiting-lobby intent flag set. -/
def sIntent : ClientState :=
  { room := some roomW, displayRoom := some roomW, pendingRoomUpdate := none,
    lastUpdateTime := 0, isInWaitingLobby := true, countdown := none }

/-- Witness for C1: with the intent flag set, a stale `playing` broadcast
followed by a genuine `waiting` reset leaves the client in the `waiting`
room, and a lone `playing` broadcast leaves the state exactly unchanged. -/
theorem c1_waiting_intent_witness :
    sIntent.isInWaitingLobby = true ∧
    applyWsEvents sIntent
        [(WsEvent.roomUpdate (some roomP), 5), (WsEvent.roomUpdate (some roomW), 6)] =
      { sIntent with room := some roomW } ∧
    applyWsEvent sIntent (WsEvent.roomUpdate (some roomP)) 5 = sIntent := by
  have h := c1_waiting_intent_filters_updates sIntent
    [(WsEvent.roomUpdate (some roomP), 5), (WsEvent.roomUpdate (some roomW), 6)] rfl
  refine ⟨rfl, ?_, ?_⟩
  · rw [h.1]; rfl
  · exact h.2 sIntent (WsEvent.roomUpdate (some roomP)) 5 rfl (by decide)

/-- Claim C2: a chat broadcast merges exactly `chat`, `gameChat` and
`typing` into the stored room and a typing broadcast merges exactly
`typing`; every other field — the status in particular — is the stored
room's, so the status-equality guard in the source always passes and no
chat or typing broadcast can ever change the session status. -/
theorem c2_chat_preserves_status (s : ClientState) (u r : Room) (h : s.room = some r) :
    (handleChatMessage s (some u)).room =
      some { r with chat := jsOr u.chat r.chat
                    gameChat := jsOr u.gameChat r.gameChat
                    typing := jsOr u.typing r.typing } ∧
    (∀ r2, (handleChatMessage s (some u)).room = some r2 → r2.status = r.status) ∧
    (handleTypingUpdate s (some u)).room =
      some { r with typing := jsOr u.typing r.typing } ∧
    (∀ r2, (handleTypingUpdate s (some u)).room = some r2 → r2.status = r.status) := by
  have hc : (handleChatMessage s (some u)).room =
      some { r with chat := jsOr u.chat r.chat
                    gameChat := jsOr u.gameChat r.gameChat
                    typing := jsOr u.typing r.typing } := by
    unfold handleChatMessage
    rw [h]
    cases hd : s.displayRoom <;> simp [hd]
  have ht : (handleTypingUpdate s (some u)).room =
      some { r with typing := jsOr u.typing r.typing } := by
    unfold handleTypingUpdate
    rw [h]
    cases hd : s.displayRoom <;> simp [hd]
  refine ⟨hc, ?_, ht, ?_⟩
  · intro r2 h2
    rw [hc] at h2
    cases h2
    rfl
  · intro r2 h2
    rw [ht] at h2
    cases h2
    rfl

/-- A chat broadcast payload for the C2 witness: it claims status `playing`
but carries new chat content. -/
def chatBroadcast : Room :=
  { roomP with chat := some ["hello"], typing := some ["h1"] }

/-- A concrete client state in the waiting lobby holding `roomW`. -/
def sLobby : ClientState :=
  { room := some roomW, displayRoom := some roomW, pendingRoomUpdate := none,
    lastUpdateTime := 0, isInWaitingLobby := false, countdown := none }

/-- Witness for C2: applying a chat broadcast (whose payload reports status
`playing`) to a `waiting` session merges the chat fields and keeps the
status `waiting`. -/
theorem c2_chat_preserves_status_witness :
    sLobby.room = some roomW ∧
    (handleChatMessage sLobby (some chatBroadcast)).room =
      some { roomW with chat := some ["hello"], typing := some ["h1"] } ∧
    ((handleChatMessage sLobby (some chatBroadcast)).room.map Room.status =
      some Status.waiting) := by
  have h := c2_chat_preserves_status sLobby chatBroadcast roomW rfl
  refine ⟨rfl, ?_, ?_⟩
  · rw [h.1]; rfl
  · rw [h.1]; rfl

/-- The render-loop body's pending-update flush at display-refresh instant
`currentTime`: if an update is parked and at least 16 ms passed since the
last pending-update check, the parked snapshot becomes the display
snapshot and the slot is cleared; otherwise nothing happens. -/
def renderFlushStep (s : ClientState) (currentTime lastPendingUpdateCheck : Nat) : ClientState :=
  match s.pendingRoomUpdate with
  | some p =>
      if 16 ≤ currentTime - lastPendingUpdateCheck then
        { s with displayRoom := some p, lastUpdateTime := currentTime,
                 pendingRoomUpdate := none }
      else s
  | none => s

/-- A burst of authoritative updates delivered through
`setRoomWithInterpolation`, each tagged with its arrival instant. -/
def applyBurst (s : ClientState) (us : List (Room × Nat)) : ClientState :=
  us.foldl (fun st p => setRoomWithInterpolation st p.1 p.2) s

theorem applyBurst_within (s : ClientState) (us : List (Room × Nat))
    (hts : ∀ p ∈ us, p.2 < s.lastUpdateTime + 16) :
    applyBurst s us =
      match us.getLast? with
      | none => s
      | some u => { s with room := some u.1, pendingRoomUpdate := some u.1 } := by
  induction us generalizing s with
  | nil => rfl
  | cons hd tl ih =>
    have hcond : ¬ 16 ≤ hd.2 - s.lastUpdateTime := by
      have := hts hd (List.mem_cons_self hd tl)
      omega
    have hstep : setRoomWithInterpolation s hd.1 hd.2 =
        { s with room := some hd.1, pendingRoomUpdate := some hd.1 } := by
      unfold setRoomWithInterpolation
      rw [if_neg hcond]
    have htl : ∀ p ∈ tl,
        p.2 < ({ s with room := some hd.1, pendingRoomUpdate := some hd.1 } :
          ClientState).lastUpdateTime + 16 := by
      intro p hp
      exact hts p (List.mem_cons_of_mem hd hp)
    show applyBurst (setRoomWithInterpolation s hd.1 hd.2) tl = _
    rw [hstep, ih _ htl]
    cases tl with
    | nil => rfl
    | cons b l =>
      rw [List.getLast?_cons_cons]
      cases hlast : (b :: l).getLast? with
      | none => simp at hlast
      | some v => rfl

/-- Claim C3: when `N ≥ 1` authoritative updates all arrive within one
redraw interval (less than 16 ms after the last display update), the
authoritative room tracks the last update, the display snapshot is
untouched, and the single-slot pending buffer holds exactly the last
update (each later arrival overwrote the earlier one — the buffer is one
`Option` slot whatever `N` is); the next eligible render-loop flush then
publishes exactly that last update and empties the slot. -/
theorem c3_render_pacer_latest_wins (s : ClientState) (us : List (Room × Nat))
    (u : Room × Nat) (hlast : us.getLast? = some u)
    (hts : ∀ p ∈ us, p.2 < s.lastUpdateTime + 16)
    (ct lpc : Nat) (hflush : 16 ≤ ct - lpc) :
    (applyBurst s us).room = some u.1 ∧
    (applyBurst s us).pendingRoomUpdate = some u.1 ∧
    (applyBurst s us).displayRoom = s.displayRoom ∧
    (renderFlushStep (applyBurst s us) ct lpc).displayRoom = some u.1 ∧
    (renderFlushStep (applyBurst s us) ct lpc).pendingRoomUpdate = none := by
  have hb := applyBurst_within s us hts
  rw [hlast] at hb
  rw [hb]
  refine ⟨rfl, rfl, rfl, ?_, ?_⟩ <;>
    simp [renderFlushStep, hflush]

/-- Witness for C3: two updates 3 ms apart inside one redraw interval —
after the burst the pending slot holds only the second, and the flush
publishes the second. -/
theorem c3_render_pacer_witness :
    (applyBurst sLobby [(roomP, 5), ({ roomP with timer := some 9 }, 8)]).pendingRoomUpdate =
      some { roomP with timer := some 9 } ∧
    (renderFlushStep (applyBurst sLobby [(roomP, 5), ({ roomP with timer := some 9 }, 8)])
        20 0).displayRoom = some { roomP with timer := some 9 } := by
  have h := c3_render_pacer_latest_wins sLobby
    [(roomP, 5), ({ roomP with timer := some 9 }, 8)]
    ({ roomP with timer := some 9 }, 8) rfl (by decide) 20 0 (by decide)
  exact ⟨h.2.1, h.2.2.2.1⟩

/-- Adaptive tick rate: 200 ms on a production deployment, 150 ms
otherwise. `getEffectiveTickRate` returns this constant unchanged. -/
def TICK_RATE (isProduction : Bool) : Nat := if isProduction then 200 else 150

/-- Whether a countdown gates the tick loop: the source's test is
`countdown !== null && countdown > 0`. -/
def countdownActive : Option Int → Bool
  | none => false
  | some c => decide (0 < c)

/-- The non-driver early return `room.host_id && room.host_id !== playerId`:
it fires only when `host_id` is truthy (present and non-empty) and differs
from the local participant's id. -/
def hostGate (hostId : Option String) (playerId : String) : Bool :=
  match hostId with
  | none => false
  | some h => !(h == "") && !(h == playerId)

/-- The mutable refs `gameTick` touches: the instant of the last accepted
tick and the queued direction input. -/
structure TickState where
  lastTick : Nat
  directionQueue : Option (Int × Int)
deriving DecidableEq, Repr

/-- One poll of `gameTick` at clock instant `now`. Returns the new state,
whether the queued direction was sent (and cleared) on this poll, and
whether a tick-advance request was emitted. The poll is a no-op unless the
room is `playing`, no positive countdown is active, the local participant
is not gated out as a non-driver, and at least one tick interval passed
since the last accepted tick. -/
def gameTickStep (room : Option Room) (countdown : Option Int) (playerId : String)
    (rate : Nat) (st : TickState) (now : Nat) : TickState × Bool × Bool :=
  match room with
  | none => (st, false, false)
  | some r =>
    if r.status ≠ Status.playing then (st, false, false)
    else if countdownActive countdown then (st, false, false)
    else if hostGate r.host_id playerId then (st, false, false)
    else if now - st.lastTick < rate then (st, false, false)
    else
      ({ lastTick := now, directionQueue := none }, st.directionQueue.isSome, true)

/-- Poll `gameTick` at each instant of `ts` in order, collecting the
instants at which a tick-advance request was emitted. -/
def runTickLoop (room : Option Room) (countdown : Option Int) (playerId : String)
    (rate : Nat) : TickState → List Nat → TickState × List Nat
  | st, [] => (st, [])
  | st, t :: ts =>
    let step := gameTickStep room countdown playerId rate st t
    let rest := runTickLoop room countdown playerId rate step.1 ts
    (rest.1, (if step.2.2 then [t] else []) ++ rest.2)

theorem gameTickStep_cases (room : Option Room) (countdown : Option Int)
    (playerId : String) (rate : Nat) (st : TickState) (now : Nat) :
    gameTickStep room countdown playerId rate st now = (st, false, false) ∨
    (rate ≤ now - st.lastTick ∧
      gameTickStep room countdown playerId rate st now =
        ({ lastTick := now, directionQueue := none }, st.directionQueue.isSome, true)) := by
  cases room with
  | none => exact Or.inl rfl
  | some r =>
    simp only [gameTickStep]
    split_ifs with h1 h2 h3 h4
    · exact Or.inl rfl
    · exact Or.inl rfl
    · exact Or.inl rfl
    · exact Or.inl rfl
    · exact Or.inr ⟨by omega, rfl⟩

theorem runTickLoop_spaced (room : Option Room) (countdown : Option Int)
    (playerId : String) (rate : Nat) (hrate : 1 ≤ rate)
    (st : TickState) (ts : List Nat) :
    List.Chain' (fun a b => a + rate ≤ b) (runTickLoop room countdown playerId rate st ts).2 ∧
    (∀ e, ((runTickLoop room countdown playerId rate st ts).2).head? = some e →
      st.lastTick + rate ≤ e) := by
  induction ts generalizing st with
  | nil => simp [runTickLoop]
  | cons t ts ih =>
    rcases gameTickStep_cases room countdown playerId rate st t with hns | ⟨hgap, hs⟩
    · simpa [runTickLoop, hns] using ih st
    · have ihn := ih ({ lastTick := t, directionQueue := none } : TickState)
      constructor
      · simp only [runTickLoop, hs, if_true, List.singleton_append]
        rw [List.chain'_cons']
        refine ⟨?_, ihn.1⟩
        intro y hy
        exact ihn.2 y hy
      · intro e he
        simp only [runTickLoop, hs, if_true, List.singleton_append, List.head?_cons,
          Option.some.injEq] at he
        subst he
        omega

theorem runTickLoop_silent (room : Option Room) (countdown : Option Int)
    (playerId : String) (rate : Nat) (st : TickState) (ts : List Nat)
    (h : ∀ st2 t, gameTickStep room countdown playerId rate st2 t = (st2, false, false)) :
    (runTickLoop room countdown playerId rate st ts).2 = [] := by
  induction ts generalizing st with
  | nil => rfl
  | cons t ts ih =>
    show ((if (gameTickStep room countdown playerId rate st t).2.2
        then [t] else []) ++ _) = []
    rw [h st t]
    simpa [runTickLoop, h st t] using ih st

/-- Claim C4: over any poll sequence of the tick scheduler, (i) any two
consecutive emitted tick-advance requests are at least one tick interval
apart — at most one request per interval no matter how often the loop is
polled; (ii) no request is emitted while the countdown is non-null and
positive; (iii) no request is emitted while a (truthy) designated driver
identifier differs from the local participant's id. -/
theorem c4_tick_scheduler_gating (room : Option Room) (countdown : Option Int)
    (playerId : String) (rate : Nat) (st : TickState) (ts : List Nat)
    (hrate : 1 ≤ rate) :
    List.Chain' (fun a b => a + rate ≤ b)
      (runTickLoop room countdown playerId rate st ts).2 ∧
    (∀ c : Int, countdown = some c → 0 < c →
      (runTickLoop room countdown playerId rate st ts).2 = []) ∧
    (∀ r h, room = some r → r.host_id = some h → h ≠ "" → h ≠ playerId →
      (runTickLoop room countdown playerId rate st ts).2 = []) := by
  refine ⟨(runTickLoop_spaced room countdown playerId rate hrate st ts).1, ?_, ?_⟩
  · intro c hc hpos
    refine runTickLoop_silent room countdown playerId rate st ts ?_
    intro st2 t
    have hactive : countdownActive countdown = true := by
      rw [hc]
      simpa [countdownActive] using hpos
    cases room with
    | none => rfl
    | some r => simp [gameTickStep, hactive]
  · intro r h hroom hhost hne hnp
    refine runTickLoop_silent room countdown playerId rate st ts ?_
    intro st2 t
    have hgate : hostGate r.host_id playerId = true := by
      rw [hhost]
      simp [hostGate, hne, hnp]
    subst hroom
    simp [gameTickStep, hgate]

/-- A concrete `playing` room whose designated driver is `"h1"`. -/
def roomPlayHost : Room := { roomP with host_id := some "h1" }

/-- Witness for C4: a concrete run polled five times emits exactly at
160 ms and 320 ms (≥ 150 ms apart); the same run emits nothing with a
countdown of 3, and nothing for the non-driver participant `"p2"`. -/
theorem c4_tick_scheduler_witness :
    (runTickLoop (some roomPlayHost) none "h1" 150 ⟨0, none⟩ [0, 100, 160, 200, 320]).2 =
      [160, 320] ∧
    List.Chain' (fun a b => a + 150 ≤ b)
      (runTickLoop (some roomPlayHost) none "h1" 150 ⟨0, none⟩ [0, 100, 160, 200, 320]).2 ∧
    (runTickLoop (some roomPlayHost) (some 3) "h1" 150 ⟨0, none⟩ [0, 100, 160, 200, 320]).2 =
      [] ∧
    (runTickLoop (some roomPlayHost) none "p2" 150 ⟨0, none⟩ [0, 100, 160, 200, 320]).2 =
      [] := by
  have h1 := c4_tick_scheduler_gating (some roomPlayHost) none "h1" 150
    ⟨0, none⟩ [0, 100, 160, 200, 320] (by decide)
  have h2 := c4_tick_scheduler_gating (some roomPlayHost) (some 3) "h1" 150
    ⟨0, none⟩ [0, 100, 160, 200, 320] (by decide)
  have h3 := c4_tick_scheduler_gating (some roomPlayHost) none "p2" 150
    ⟨0, none⟩ [0, 100, 160, 200, 320] (by decide)
  refine ⟨by decide, h1.1, h2.2.1 3 rfl (by decide), ?_⟩
  exact h3.2.2 roomPlayHost "h1" rfl rfl (by decide) (by decide)

/-- Guard of the game-loop effect of the `Game` component: the tick loop is
started iff the room status is `playing` and the countdown gate
`countdown !== null && countdown > 0` does not fire. The source's own
comment says the countdown "must be null, not 0" for the loop to start,
but the gate lets a countdown of `0` through. -/
def gameLoopRuns (status : Option Status) (countdown : Option Int) : Bool :=
  if status ≠ some Status.playing then false
  else if countdownActive countdown then false
  else true

/-- Claim C5 (code bug): with status `playing` and a countdown value of
`0` — non-null — the game-loop guard starts the loop and `gameTick` emits
a tick-advance request, contradicting the claim (and the source's own
comment "must be null, not 0") that the loop runs only when the countdown
is null. -/
theorem c5_countdown_zero_runs_loop :
    gameLoopRuns (some Status.playing) (some 0) = true ∧
    (gameTickStep (some roomPlayHost) (some 0) "h1" 150 ⟨0, none⟩ 200).2.2 = true := by
  decide

/-- `maxReconnectAttempts` of the WebSocket client. -/
def maxReconnectAttempts : Nat := 10

/-- The backoff base: 2000 ms on a production deployment, 1000 ms in
development. -/
def reconnectBaseDelay (isProduction : Bool) : ℚ := if isProduction then 2000 else 1000

/-- The delay computed for reconnect attempt number `attempt` (1-based, the
value of `reconnectAttempts` after the increment) with the drawn jitter
`jitter ∈ [0, 1000)`: `min(base * 1.5^(attempt-1) + jitter, 10000)`.
All quantities are exactly representable as rationals (every value the
source computes is a small dyadic rational, exact in a JS double). -/
def reconnectDelay (isProduction : Bool) (attempt : Nat) (jitter : ℚ) : ℚ :=
  min (reconnectBaseDelay isProduction * ((3 : ℚ) / 2) ^ (attempt - 1) + jitter) 10000

/-- One call of `attemptReconnect` with the current `reconnectAttempts`
counter: below the cap the counter is bumped and a reconnect is scheduled;
at the cap nothing is scheduled and the terminal `reconnectFailed` signal
is emitted. Returns (new counter, scheduled?, reconnectFailed emitted?). -/
def attemptReconnect (attempts : Nat) : Nat × Bool × Bool :=
  if attempts < maxReconnectAttempts then (attempts + 1, true, false)
  else (attempts, false, true)

/-- Claim C6 counterexample: the computed delay includes random jitter, so
the delay of a later attempt need not exceed that of an earlier one.
Attempt 1 with jitter 900 yields 1900 ms; attempt 2 with jitter 0 yields
1500 ms — both far below the 10000 ms clamp, yet the later delay is
smaller, refuting "the computed backoff delay of the later attempt is
strictly greater than that of the earlier attempt". -/
theorem c6_jitter_nonmonotone_cex :
    reconnectDelay false 1 900 = 1900 ∧ reconnectDelay false 2 0 = 1500 ∧
    reconnectDelay false 1 900 < 10000 ∧ reconnectDelay false 2 0 < 10000 ∧
    ¬ reconnectDelay false 1 900 < reconnectDelay false 2 0 := by
  norm_num [reconnectDelay, reconnectBaseDelay]

/-- Claim C6 as amended: reconnect attempts stop exactly at the cap of 10 —
each call below the cap schedules one more attempt and bumps the counter,
and the call at the cap schedules nothing and emits the terminal
`reconnectFailed` signal; and for a fixed jitter value, the computed
backoff delay is strictly increasing from one attempt to the next as long
as it has not reached the 10000 ms clamp. -/
theorem c6_reconnect_cap_and_backoff :
    (∀ n : Nat, n < maxReconnectAttempts → attemptReconnect n = (n + 1, true, false)) ∧
    attemptReconnect maxReconnectAttempts = (maxReconnectAttempts, false, true) ∧
    (∀ (p : Bool) (n : Nat) (j : ℚ), 1 ≤ n → 0 ≤ j →
      reconnectDelay p n j < 10000 → reconnectDelay p n j < reconnectDelay p (n + 1) j) := by
  refine ⟨?_, ?_, ?_⟩
  · intro n hn
    simp [attemptReconnect, hn]
  · simp [attemptReconnect]
  · intro p n j hn hj hlt
    have hbase : (0 : ℚ) < reconnectBaseDelay p := by
      cases p <;> norm_num [reconnectBaseDelay]
    have hpow : ((3 : ℚ) / 2) ^ (n - 1) < ((3 : ℚ) / 2) ^ (n + 1 - 1) := by
      refine pow_lt_pow_right₀ (by norm_num) ?_
      omega
    have hx : reconnectBaseDelay p * ((3 : ℚ) / 2) ^ (n - 1) + j <
        reconnectBaseDelay p * ((3 : ℚ) / 2) ^ (n + 1 - 1) + j := by
      have := mul_lt_mul_of_pos_left hpow hbase
      linarith
    have hunclamped : reconnectDelay p n j =
        reconnectBaseDelay p * ((3 : ℚ) / 2) ^ (n - 1) + j := by
      unfold reconnectDelay at hlt ⊢
      rcases le_or_lt (reconnectBaseDelay p * ((3 : ℚ) / 2) ^ (n - 1) + j) 10000 with h | h
      · exact min_eq_left h
      · rw [min_eq_right h.le] at hlt
        exact absurd hlt (lt_irrefl _)
    rw [hunclamped]
    unfold reconnectDelay
    refine lt_min ?_ ?_
    · exact hx
    · rw [hunclamped] at hlt
      exact hlt

/-- Witness for C6: attempt 4 schedules a retry, attempt 10 emits the
terminal failure, and with jitter held at 500 the attempt-2 delay 2000 ms
is strictly below the attempt-3 delay. -/
theorem c6_reconnect_witness :
    attemptReconnect 4 = (5, true, false) ∧
    attemptReconnect 10 = (10, false, true) ∧
    reconnectDelay false 2 500 < reconnectDelay false 3 500 := by
  refine ⟨?_, c6_reconnect_cap_and_backoff.2.1, ?_⟩
  · exact c6_reconnect_cap_and_backoff.1 4 (by norm_num [maxReconnectAttempts])
  · refine c6_reconnect_cap_and_backoff.2.2 false 2 500 (by norm_num) (by norm_num) ?_
    norm_num [reconnectDelay, reconnectBaseDelay]

/-- An outbound frame of the WebSocket client: the action tag, the
generated correlation id, and the serialized params (opaque). -/
structure WsMessage where
  action : String
  responseId : String
  params : List String
deriving DecidableEq, Repr

/-- The WebSocket client's mutable state: the connected flag, whether the
underlying socket's `readyState` is OPEN, the FIFO message queue, the
retry counter, and the keepalive timer handles (modelled by the configured
durations they carry). -/
structure WsClientState where
  connected : Bool
  wsOpen : Bool
  messageQueue : List WsMessage
  reconnectAttempts : Nat
  pingInterval : Option Nat
  pongTimeout : Option Nat
  isProduction : Bool
deriving DecidableEq, Repr

/-- `send(action, params)`: transmit immediately when connected with an
open socket (returning the correlation id), otherwise append the message
to the FIFO queue — never discard it — and trigger a connection attempt.
Returns (new state, the frame transmitted now if any, the correlation id
handed back to the caller). -/
def send (s : WsClientState) (m : WsMessage) : WsClientState × Option WsMessage × String :=
  if s.connected && s.wsOpen then (s, some m, m.responseId)
  else ({ s with messageQueue := s.messageQueue ++ [m] }, none, m.responseId)

/-- The `flushMessageQueue` while-loop: while the queue is nonempty and the
client is connected, shift the head and transmit it when the socket is
OPEN. Returns (frames transmitted in order, queue left behind). -/
def flushLoop (connected wsOpen : Bool) : List WsMessage → List WsMessage × List WsMessage
  | [] => ([], [])
  | m :: rest =>
    if connected then
      let r := flushLoop connected wsOpen rest
      ((if wsOpen then m :: r.1 else r.1), r.2)
    else ([], m :: rest)

/-- `flushMessageQueue()` on the client state. -/
def flushMessageQueue (s : WsClientState) : WsClientState × List WsMessage :=
  let r := flushLoop s.connected s.wsOpen s.messageQueue
  ({ s with messageQueue := r.2 }, r.1)

theorem flushLoop_connected_open (q : List WsMessage) :
    flushLoop true true q = (q, []) := by
  induction q with
  | nil => rfl
  | cons m rest ih => simp [flushLoop, ih]

/-- Claim C7: a command sent while the transport is not (connected with an
open socket) is appended to the FIFO queue — nothing already queued is
touched, nothing is discarded, and the caller still receives the
correlation id; and a flush performed while connected with an open socket
transmits the whole queue in FIFO order and leaves the queue empty, so no
queued command is dropped. (Only the tick/direction fast path elsewhere
may drop frames; `send`/`flushMessageQueue` never do.) -/
theorem c7_queue_fifo_no_drop (s : WsClientState) (m : WsMessage)
    (hnot : ¬ (s.connected = true ∧ s.wsOpen = true)) :
    send s m = ({ s with messageQueue := s.messageQueue ++ [m] }, none, m.responseId) ∧
    (∀ s2 : WsClientState, s2.connected = true → s2.wsOpen = true →
      flushMessageQueue s2 = ({ s2 with messageQueue := [] }, s2.messageQueue)) := by
  constructor
  · unfold send
    rw [if_neg (by simpa [Bool.and_eq_true] using hnot)]
  · intro s2 hc ho
    unfold flushMessageQueue
    rw [hc, ho, flushLoop_connected_open]

/-- Two concrete frames for the C7/C8 witnesses. -/
def msgA : WsMessage := { action := "updateDirection", responseId := "d1", params := ["AB12"] }

/-- A second concrete frame. -/
def msgB : WsMessage := { action := "tick", responseId := "t1", params := ["AB12"] }

/-- A concrete disconnected client state already holding one queued frame. -/
def sDisconnected : WsClientState :=
  { connected := false, wsOpen := false, messageQueue := [msgA],
    reconnectAttempts := 2, pingInterval := none, pongTimeout := none, isProduction := false }

/-- Witness for C7: sending while disconnected appends to the queue behind
the already-queued frame, and a flush on a connected open client sends
both frames in order and empties the queue. -/
theorem c7_queue_fifo_witness :
    send sDisconnected msgB =
      ({ sDisconnected with messageQueue := [msgA, msgB] }, none, "t1") ∧
    flushMessageQueue
        { sDisconnected with connected := true, wsOpen := true, messageQueue := [msgA, msgB] } =
      ({ sDisconnected with connected := true, wsOpen := true, messageQueue := [] },
        [msgA, msgB]) := by
  have h := c7_queue_fifo_no_drop sDisconnected msgB (by decide)
  constructor
  · rw [h.1]; rfl
  · exact h.2 _ rfl rfl

/-- The keepalive probe period: `ping` every 30000 ms. -/
def PING_INTERVAL_MS : Nat := 30000

/-- The grace period for the `pong` acknowledgment: 5000 ms, after which
the socket is force-closed. -/
def PONG_TIMEOUT_MS : Nat := 5000

/-- `stopKeepAlive()`: clear both keepalive timers. -/
def stopKeepAlive (s : WsClientState) : WsClientState :=
  { s with pingInterval := none, pongTimeout := none }

/-- `startKeepAlive()`: only on a production deployment, clear any existing
timers and install the 30-second ping interval; in development it does
nothing at all. -/
def startKeepAlive (s : WsClientState) : WsClientState :=
  if s.isProduction then { stopKeepAlive s with pingInterval := some PING_INTERVAL_MS }
  else s

/-- One firing of the ping interval: when the socket is OPEN, send `ping`
and arm the 5-second pong timeout whose expiry force-closes the socket.
Returns (new state, whether a probe was sent). -/
def pingFire (s : WsClientState) : WsClientState × Bool :=
  if s.wsOpen then ({ s with pongTimeout := some PONG_TIMEOUT_MS }, true)
  else (s, false)

/-- The `ws.onopen` handler: set connected, reset the retry counter to
zero, flush the queue, then start the keepalive. Returns the new state
and the frames flushed, in order. -/
def onOpen (s : WsClientState) : WsClientState × List WsMessage :=
  let s1 := { s with connected := true, reconnectAttempts := 0 }
  let r := flushMessageQueue s1
  (startKeepAlive r.1, r.2)

/-- A concrete development-build client state at the instant its socket
opens, with a queued frame and a nonzero retry counter. -/
def devOpenState : WsClientState :=
  { connected := false, wsOpen := true, messageQueue := [msgA],
    reconnectAttempts := 3, pingInterval := none, pongTimeout := none, isProduction := false }

/-- Claim C8 counterexample: on a development build the open event starts
no keepalive heartbeat at all (`startKeepAlive` is a no-op unless
`isProduction`), refuting "on every connection open event … starts a
keepalive heartbeat" — the flush and retry-count reset do happen. -/
theorem c8_dev_no_keepalive_cex :
    (onOpen devOpenState).1.pingInterval = none ∧
    devOpenState.isProduction = false ∧
    (onOpen devOpenState).2 = [msgA] ∧
    (onOpen devOpenState).1.reconnectAttempts = 0 := by
  decide

/-- Claim C8 as amended: on every connection open event the client flushes
the message queue in order (leaving it empty), resets the retry counter to
zero and marks itself connected; the keepalive heartbeat — a `ping` probe
every 30000 ms whose unanswered `pong` grace period of 5000 ms (strictly
shorter than the probe period) force-closes the socket — is started only
on production deployments, while on development builds `startKeepAlive`
leaves the timers untouched. -/
theorem c8_on_open_behavior (s : WsClientState) (h : s.wsOpen = true) :
    (onOpen s).2 = s.messageQueue ∧
    (onOpen s).1.messageQueue = [] ∧
    (onOpen s).1.reconnectAttempts = 0 ∧
    (onOpen s).1.connected = true ∧
    (onOpen s).1.pingInterval =
      (if s.isProduction then some PING_INTERVAL_MS else s.pingInterval) ∧
    (∀ s2 : WsClientState, s2.wsOpen = true →
      (pingFire s2).1.pongTimeout = some PONG_TIMEOUT_MS ∧ (pingFire s2).2 = true) ∧
    PONG_TIMEOUT_MS < PING_INTERVAL_MS := by
  have hflush : flushMessageQueue { s with connected := true, reconnectAttempts := 0 } =
      ({ s with connected := true, reconnectAttempts := 0, messageQueue := [] },
        s.messageQueue) := by
    unfold flushMessageQueue
    show ({ { s with connected := true, reconnectAttempts := 0 } with
      messageQueue := (flushLoop true s.wsOpen s.messageQueue).2 },
      (flushLoop true s.wsOpen s.messageQueue).1) = _
    rw [h, flushLoop_connected_open]
  refine ⟨?_, ?_, ?_, ?_, ?_, ?_, by norm_num [PONG_TIMEOUT_MS, PING_INTERVAL_MS]⟩
  · show (flushMessageQueue { s with connected := true, reconnectAttempts := 0 }).2 = _
    rw [hflush]
  · show (startKeepAlive
      (flushMessageQueue { s with connected := true, reconnectAttempts := 0 }).1).messageQueue = _
    rw [hflush]
    unfold startKeepAlive stopKeepAlive
    by_cases hp : s.isProduction = true <;> simp [hp]
  · show (startKeepAlive
      (flushMessageQueue { s with connected := true, reconnectAttempts := 0 }).1).reconnectAttempts = _
    rw [hflush]
    unfold startKeepAlive stopKeepAlive
    by_cases hp : s.isProduction = true <;> simp [hp]
  · show (startKeepAlive
      (flushMessageQueue { s with connected := true, reconnectAttempts := 0 }).1).connected = _
    rw [hflush]
    unfold startKeepAlive stopKeepAlive
    by_cases hp : s.isProduction = true <;> simp [hp]
  · show (startKeepAlive
      (flushMessageQueue { s with connected := true, reconnectAttempts := 0 }).1).pingInterval = _
    rw [hflush]
    unfold startKeepAlive stopKeepAlive
    by_cases hp : s.isProduction = true <;> simp [hp]
  · intro s2 h2
    unfold pingFire
    rw [if_pos h2]
    exact ⟨rfl, rfl⟩

/-- A concrete production-build client state at the instant its socket
opens. -/
def prodOpenState : WsClientState :=
  { devOpenState with isProduction := true, pingInterval := none }

/-- Witness for C8 (amended): on a production build the open event flushes
the queued frame, resets the retry counter, and installs the 30-second
ping interval; a ping firing on the open socket arms the 5-second pong
timeout. -/
theorem c8_on_open_witness :
    (onOpen prodOpenState).2 = [msgA] ∧
    (onOpen prodOpenState).1.messageQueue = [] ∧
    (onOpen prodOpenState).1.reconnectAttempts = 0 ∧
    (onOpen prodOpenState).1.pingInterval = some 30000 ∧
    (pingFire prodOpenState).1.pongTimeout = some 5000 ∧
    5000 < 30000 := by
  have h := c8_on_open_behavior prodOpenState rfl
  refine ⟨h.1, h.2.1, h.2.2.1, ?_, ?_, by norm_num⟩
  · rw [h.2.2.2.2.1]; rfl
  · exact (h.2.2.2.2.2.1 prodOpenState rfl).1

/-- The outcome list of running one listener callback under the dispatch
loop's try/catch: a thrown exception is captured (and logged) as `some e`
instead of propagating. -/
def runListener {A E : Type} (cb : A → Except E Unit) (d : A) : Option E :=
  match cb d with
  | Except.ok _ => none
  | Except.error e => some e

/-- The `emit` dispatch loop over the listeners registered for one event:
each callback runs inside its own try/catch, so the loop always reaches
the end of the list and returns the per-listener outcomes in order. -/
def emitDispatch {A E : Type} (ls : List (A → Except E Unit)) (d : A) : List (Option E) :=
  match ls with
  | [] => []
  | cb :: rest => runListener cb d :: emitDispatch rest d

theorem emitDispatch_append {A E : Type} (l1 l2 : List (A → Except E Unit)) (d : A) :
    emitDispatch (l1 ++ l2) d = emitDispatch l1 d ++ emitDispatch l2 d := by
  induction l1 with
  | nil => rfl
  | cons cb rest ih => simp [emitDispatch, ih]

/-- Claim C9: the dispatch loop produces one outcome per registered
listener — it never stops early — and around any listener (in particular a
throwing one) the listeners before and after it are all still invoked, in
registration order; since `emitDispatch` is a total function into outcome
lists, no listener exception ever propagates out of the loop. -/
theorem c9_listener_isolation {A E : Type} (ls pre post : List (A → Except E Unit))
    (cb : A → Except E Unit) (d : A) :
    (emitDispatch ls d).length = ls.length ∧
    (ls = pre ++ cb :: post →
      emitDispatch ls d = emitDispatch pre d ++ runListener cb d :: emitDispatch post d) := by
  constructor
  · induction ls with
    | nil => rfl
    | cons c rest ih => simp [emitDispatch, ih]
  · intro hsplit
    subst hsplit
    rw [emitDispatch_append]
    rfl

/-- A listener that succeeds. -/
def okListener : Nat → Except Nat Unit := fun _ => Except.ok ()

/-- A listener that throws. -/
def badListener : Nat → Except Nat Unit := fun _ => Except.error 7

/-- Witness for C9: with a throwing listener between two healthy ones, all
three outcomes are produced — the exception is captured as `some 7` and
the listener after it still ran. -/
theorem c9_listener_isolation_witness :
    (emitDispatch [okListener, badListener, okListener] 0).length = 3 ∧
    emitDispatch [okListener, badListener, okListener] 0 =
      emitDispatch [okListener] 0 ++ runListener badListener 0 :: emitDispatch [okListener] 0 ∧
    emitDispatch [okListener, badListener, okListener] 0 = [none, some 7, none] := by
  have h := c9_listener_isolation [okListener, badListener, okListener]
    [okListener] [okListener] badListener 0
  exact ⟨h.1, h.2 rfl, rfl⟩

/-- `isHost` of the lobby: `room?.host_id === playerId`. -/
def isHost (room : Room) (playerId : String) : Bool :=
  decide (room.host_id = some playerId)

/-- `canStart`: at least two participants in the room. -/
def canStart (room : Room) : Bool :=
  decide (2 ≤ room.players.length)

/-- `guestPlayers`: the non-bot participants whose id differs from the
room's `host_id` (comparing a present id against a possibly absent host
id, as `p.id !== room?.host_id` does). -/
def guestPlayers (room : Room) : List Participant :=
  room.players.filter (fun p => !p.isBot && decide (some p.id ≠ room.host_id))

/-- `allReady`: no guest players, or every guest player has `ready` exactly
`true`. -/
def allReady (room : Room) : Bool :=
  decide ((guestPlayers room).length = 0) ||
    (guestPlayers room).all (fun p => decide (p.ready = some true))

/-- Whether clicking the lobby's Start Game control reaches `onStart`: the
button exists only on the host's lobby view, it is disabled unless
`canStart && allReady`, and its click handler re-checks the same
conditions before invoking `onStart`. -/
def startButtonInvokesStart (room : Room) (playerId : String) : Bool :=
  isHost room playerId && (canStart room && allReady room)

/-- Claim C10: the Start Game control invokes the start action exactly when
the local participant is the host, the room has at least two participants,
and every non-bot participant other than the host is ready; whenever any
of these fails the click is a no-op. -/
theorem c10_start_button_guard (room : Room) (playerId : String) :
    startButtonInvokesStart room playerId = true ↔
      (room.host_id = some playerId ∧ 2 ≤ room.players.length ∧
        ∀ p ∈ room.players, p.isBot = false → p.id ≠ playerId → p.ready = some true) := by
  unfold startButtonInvokesStart isHost canStart allReady guestPlayers
  simp only [Bool.and_eq_true, Bool.or_eq_true, decide_eq_true_eq, List.all_eq_true,
    List.mem_filter, Bool.not_eq_true', List.length_eq_zero]
  constructor
  · rintro ⟨hhost, hlen, hready⟩
    refine ⟨hhost, hlen, ?_⟩
    intro p hp hbot hid
    rcases hready with hnil | hall
    · exfalso
      have hmem : p ∈ room.players.filter
          (fun p => !p.isBot && decide (some p.id ≠ room.host_id)) := by
        rw [List.mem_filter]
        refine ⟨hp, ?_⟩
        simp [hbot, hhost, hid]
      rw [hnil] at hmem
      simp at hmem
    · refine hall p ⟨hp, hbot, ?_⟩
      rw [hhost]
      simp [hid]
  · rintro ⟨hhost, hlen, hall⟩
    refine ⟨hhost, hlen, Or.inr ?_⟩
    rintro p ⟨hmem, hbot, hneq⟩
    have hid : p.id ≠ playerId := by
      intro he
      apply hneq
      rw [hhost, he]
    exact hall p hmem hbot hid

end SnekClient
